import Mathlib

/-!
Verification of the hmdc-quotas library (`hmdcquotas.py`) and its CLI
(`quotasUtil.py`) against a shallow embedding in Lean.

The NetApp storage array is an external dependency: it is modelled as an
oracle (`NetApp`) giving, for each quota API call, the error reason the
array would report (`none` when the call succeeds) and the quota data a
successful get would return.  Every embedded operation returns, besides
its Python return value, the ordered list of array calls it performed
(its trace).  Python numbers are modelled exactly: Python 2 ints as `ℤ`
and Python floats as `ℚ` (the only float arising here is the literal
`.0009765625 = 2 ^ (-10)`, and multiplying an int by it is modelled as
exact rational arithmetic).  An uncaught Python exception is modelled as
a distinguished outcome (`exn` constructors below).
-/

namespace HMDCQuotas

/-- Python `pat in s` substring test (Python 2 `str` is ASCII here). -/
def strContains (s pat : String) : Bool :=
  s.toList.tails.any (fun t => pat.toList.isPrefixOf t)

/-- A Python 2 number: an int or a float.  Floats are modelled as exact
rationals (see the header comment). -/
inductive PyNum
  | int : ℤ → PyNum
  | flt : ℚ → PyNum
deriving DecidableEq

/-- Python 2 multiplication: int * int stays an int, anything involving a
float is a float. -/
def PyNum.mul : PyNum → PyNum → PyNum
  | .int a, .int b => .int (a * b)
  | .int a, .flt q => .flt ((a : ℚ) * q)
  | .flt q, .int a => .flt (q * (a : ℚ))
  | .flt p, .flt q => .flt (p * q)

/-- Python 2 `x / 16`: floor division on ints, true division on floats
(source line 379: `file_limit = disk_limit / 16`). -/
def PyNum.div16 : PyNum → PyNum
  | .int a => .int (Int.fdiv a 16)
  | .flt q => .flt (q / 16)

/-- The numeric value of a `PyNum`, as a rational. -/
def PyNum.toRat : PyNum → ℚ
  | .int a => (a : ℚ)
  | .flt q => q

/-- Class variable `DEFAULT_QUOTA` (source line 57). -/
def DEFAULT_QUOTA : String := "5G"

/-- The exact rational value of the Python float literal `.0009765625`,
namely 1/1024, written in reduced form so that kernel evaluation of the
table works. -/
def kbPerByte : ℚ := ⟨1, 1024, by norm_num, Nat.coprime_one_left 1024⟩

/-- Class variable `FILESIZES` (source lines 59-63): valid filesize units
and their kb multiplier. -/
def FILESIZES : List (Char × PyNum) :=
  [('B', .flt kbPerByte),
   ('K', .int 1),
   ('M', .int 1024),
   ('G', .int 1048576),
   ('T', .int 1073741824)]

/-- Class variable `JERK_FILESIZES` (source line 64). -/
def JERK_FILESIZES : List Char := ['P', 'E', 'Z', 'Y']

/-- Class variable `VOLUMES` (source lines 66-71): SVMs with their
respective volumes.  The Python dict is modelled as an association list
in source order. -/
def VOLUMES : List (String × List String) :=
  [("nc-rce-svm01-mgmt",
      ["projects", "projects_nobackup", "projects_ci3", "projects_nobackup_ci3"]),
   ("nc-hmdc-svm01-mgmt", ["www"]),
   ("nc-rshiny-svm01-mgmt", ["rshiny_ci3"])]

/-- Result of `convert_to_kb`: the Python pair `(True, kb)` or
`(False, message)`. -/
inductive ConvResult
  | ok : PyNum → ConvResult
  | err : String → ConvResult
deriving DecidableEq

/-- Python `int()` on a string of decimal digits. -/
def valDigits (ds : List Char) : ℕ :=
  ds.foldl (fun n c => 10 * n + (c.toNat - Char.toNat '0')) 0

/-- Embedding of `HMDCQuotas.convert_to_kb` (source lines 215-254).
The regex `([0-9]+)([a-z]+)` with `re.I`, applied with `re.match`,
matches a maximal nonempty digit run at the start of the string followed
by a nonempty (ASCII) letter run; trailing characters are ignored.
`items[0]` is the digit run, `items[1][0].upper()` the first letter. -/
def convert_to_kb (disk_limit : String) : ConvResult :=
  let cs := disk_limit.toList
  let ds := cs.takeWhile Char.isDigit
  let ls := (cs.dropWhile Char.isDigit).takeWhile Char.isAlpha
  match ds, ls with
  | [], _ => .err "Unrecognized disk quota format."
  | _ :: _, [] => .err "Unrecognized disk quota format."
  | _ :: _, u :: _ =>
    let size : ℤ := (valDigits ds : ℤ)
    let unit := u.toUpper
    if JERK_FILESIZES.contains unit then
      .err "Enter quota as terabytes or lower."
    else
      match FILESIZES.lookup unit with
      | some mult => .ok (PyNum.mul (.int size) mult)
      | none => .err "Unrecognized disk size unit."

/-- One quota API call sent to the array by `_netapp_invoke`.
`limits = none` models an invoke without `disk-limit`/`soft-file-limit`
arguments (delete/get); `limits = some (d, f)` models an invoke carrying
them (add/modify), where `d`/`f` are the Python values passed (which may
themselves be Python `None`, hence the inner `Option`). -/
structure QuotaCall where
  api : String
  group : String
  volume : String
  vserver : String
  limits : Option (Option PyNum × Option PyNum)
deriving DecidableEq

/-- An array call appearing in a trace: a quota API call or a
`quota-resize` call (source line 211). -/
inductive Call
  | q : QuotaCall → Call
  | resize : String → String → Call
deriving DecidableEq

/-- The quota data `humanize_quotas` produces from a successful get:
the humanized disk quota string and the soft file limit (Python `None`
when the array reports `-`). -/
abbrev HumanQuota := String × Option ℤ

instance : DecidableEq (String × HumanQuota) := inferInstance

instance : DecidableEq (List (String × HumanQuota)) := inferInstance

instance : DecidableEq (String × List (String × HumanQuota)) := inferInstance

instance : DecidableEq (List (String × List (String × HumanQuota))) := inferInstance

/-- The external NetApp array, modelled as an oracle: `reason` is
`results_reason()` of each quota call (`none` when the call succeeded),
and `quotas` is the quota entry data of a call as rendered by
`humanize_quotas`. -/
structure NetApp where
  reason : QuotaCall → Option String
  quotas : QuotaCall → HumanQuota

/-- Embedding of `HMDCQuotas.humanize_quotas` (source lines 256-282):
it reads `disk-limit` and `soft-file-limit` from the array response and
renders them with the external `humanize` library; both steps depend
only on the array data, so they are modelled by the oracle field
`quotas`. -/
def humanize_quotas (na : NetApp) (invoke : QuotaCall) : HumanQuota :=
  na.quotas invoke

/-- Result of `_netapp_invoke`: `(True, invoke)`, `(False, message)`, or
an uncaught exception (the dead fall-through where the local `invoke`
would be unbound). -/
inductive InvokeRes
  | ok : QuotaCall → InvokeRes
  | err : String → InvokeRes
  | exn : InvokeRes
deriving DecidableEq

/-- Embedding of the second half of `_netapp_invoke` (source lines
178-188): build and send the invoke for an already-resolved API name.
Delete and get queries carry no `disk-limit`/`soft-file-limit`; add and
modify carry both.  The fall-through (no branch taken) would leave
`invoke` unbound and raise; it is unreachable for the four API names. -/
def invoke2 (api group volume vserver : String)
    (disk_limit file_limit : Option PyNum) : InvokeRes × List Call :=
  if strContains api "delete" || strContains api "get" then
    let qc : QuotaCall := ⟨api, group, volume, vserver, none⟩
    (.ok qc, [Call.q qc])
  else if strContains api "add" || strContains api "modify" then
    let qc : QuotaCall := ⟨api, group, volume, vserver, some (disk_limit, file_limit)⟩
    (.ok qc, [Call.q qc])
  else
    (.exn, [])

/-- Embedding of `HMDCQuotas._netapp_invoke` (source lines 138-188):
resolve the action string to a NetApp command by substring tests in
source order, then send the invoke; unrecognized actions return
`(False, "Unknown action.")` without any array call. -/
def netapp_invoke (action group volume vserver : String)
    (disk_limit file_limit : Option PyNum) : InvokeRes × List Call :=
  if strContains action "add" then
    invoke2 "quota-add-entry" group volume vserver disk_limit file_limit
  else if strContains action "delete" then
    invoke2 "quota-delete-entry" group volume vserver disk_limit file_limit
  else if strContains action "modify" then
    invoke2 "quota-modify-entry" group volume vserver disk_limit file_limit
  else if strContains action "get" || strContains action "search" then
    invoke2 "quota-get-entry" group volume vserver disk_limit file_limit
  else
    (.err "Unknown action.", [])

/-- Embedding of `HMDCQuotas._netapp_resize` (source lines 190-213):
sends `quota-resize` for the volume and returns `(True, None)`
unconditionally (the result of the resize invoke is not read). -/
def netapp_resize (volume vserver : String) : (Bool × Option String) × List Call :=
  ((true, none), [Call.resize volume vserver])

/-- Result of `group_lookup`: `(True, invoke)`, `(False, None)` for a
group that is simply absent, `(False, reason)` for an actual error, or
an uncaught exception. -/
inductive LookupRes
  | found : QuotaCall → LookupRes
  | absent : LookupRes
  | failed : String → LookupRes
  | exn : LookupRes
deriving DecidableEq

/-- Embedding of `HMDCQuotas.group_lookup` (source lines 303-341). -/
def group_lookup (na : NetApp) (group volume vserver : String) :
    LookupRes × List Call :=
  match netapp_invoke "search" group volume vserver none none with
  | (.err m, tr) => (.failed m, tr)
  | (.exn, tr) => (.exn, tr)
  | (.ok qc, tr) =>
    match na.reason qc with
    | none => (.found qc, tr)
    | some reason =>
      if strContains reason "entry doesn\x27t exist" then (.absent, tr)
      else (.failed reason, tr)

/-- The quota call that a search for `group` on `volume`/`vserver`
sends: `group_lookup` invokes with action `search`, which resolves to
`quota-get-entry` and carries no limits. -/
def searchCall (group volume vserver : String) : QuotaCall :=
  ⟨"quota-get-entry", group, volume, vserver, none⟩

/-- Result of `modify` (and of the CLI `modify_quota`): the Python pair
`(success, message-or-None)`, or an uncaught exception. -/
inductive ModifyRes
  | ret : Bool → Option String → ModifyRes
  | exn : ModifyRes
deriving DecidableEq

/-- Embedding of `HMDCQuotas.modify` (source lines 343-401).
Source line 385 reads `sucess, result = self._netapp_invoke(...)`: the
misspelt variable leaves `success` equal to `True` (its value from the
disk-quota conversion), so the `if success:` on line 387 is always taken
and `result.results_reason()` is evaluated even when `_netapp_invoke`
returned an error string, raising `AttributeError` (modelled as `.exn`);
the `return (False, result)` on line 390 is dead code.  The
`disk_limit % 16` check on line 381 only logs a warning and is not
modelled. -/
def modify (na : NetApp) (action group volume vserver : String)
    (disk_limit : Option String) (file_limit : Option PyNum) :
    ModifyRes × List Call :=
  let dl_str := disk_limit.getD DEFAULT_QUOTA
  match convert_to_kb dl_str with
  | .err m => (.ret false (some m), [])
  | .ok dl =>
    let fl := file_limit.getD (PyNum.div16 dl)
    match netapp_invoke action group volume vserver (some dl) (some fl) with
    | (.err _, tr) => (.exn, tr)
    | (.exn, tr) => (.exn, tr)
    | (.ok qc, tr) =>
      match na.reason qc with
      | none =>
        match netapp_resize volume vserver with
        | ((true, _), tr2) => (.ret true none, tr ++ tr2)
        | ((false, _), tr2) => (.ret false (some "Unknown error with resize."), tr ++ tr2)
      | some reason => (.ret false (some reason), tr)

/-- Result of the search functions: `(True, matches)`, `(False, message)`,
or an uncaught exception (a `KeyError` on an unknown vserver). -/
inductive SearchRes (α : Type)
  | ok : α → SearchRes α
  | err : String → SearchRes α
  | exn : SearchRes α
deriving DecidableEq

/-- The loop body of `HMDCQuotas.search_volumes` (source lines 476-489):
iterate over the volumes, recording each found quota in `matches`
(a Python dict, modelled as an association list in insertion order),
skipping absent groups, and returning `(False, reason)` on the first
actual error. -/
def search_volumes_go (na : NetApp) (group vserver : String) :
    List String → List (String × HumanQuota) →
    SearchRes (List (String × HumanQuota)) × List Call
  | [], ms => (.ok ms, [])
  | v :: rest, ms =>
    match group_lookup na group v vserver with
    | (.found qc, tr) =>
      let p := search_volumes_go na group vserver rest
        (ms ++ [(v, humanize_quotas na qc)])
      (p.1, tr ++ p.2)
    | (.absent, tr) =>
      let p := search_volumes_go na group vserver rest ms
      (p.1, tr ++ p.2)
    | (.failed m, tr) => (.err m, tr)
    | (.exn, tr) => (.exn, tr)

/-- Embedding of `HMDCQuotas.search_volumes` (source lines 458-489).
`self.VOLUMES[vserver]` raises `KeyError` on an unknown vserver. -/
def search_volumes (na : NetApp) (group vserver : String) :
    SearchRes (List (String × HumanQuota)) × List Call :=
  match VOLUMES.lookup vserver with
  | some vols => search_volumes_go na group vserver vols []
  | none => (.exn, [])

/-- The loop of `HMDCQuotas.search_vservers` over all vservers (source
lines 426-435): each vserver with a nonempty result set becomes an entry
of `matches`; the first failing vserver aborts the search. -/
def search_vservers_go (na : NetApp) (group : String) :
    List (String × List String) → List (String × List (String × HumanQuota)) →
    SearchRes (List (String × List (String × HumanQuota))) × List Call
  | [], ms => (.ok ms, [])
  | (vs, _) :: rest, ms =>
    match search_volumes na group vs with
    | (.ok result, tr) =>
      let acc := if result.length > 0 then ms ++ [(vs, result)] else ms
      let p := search_vservers_go na group rest acc
      (p.1, tr ++ p.2)
    | (.err m, tr) => (.err m, tr)
    | (.exn, tr) => (.exn, tr)

/-- Embedding of the loop of `HMDCQuotas.get_vserver` (source lines
295-301) over the `VOLUMES` table. -/
def get_vserver_go (volume : String) : List (String × List String) → Bool × String
  | [] =>
    (false, "Did not find a matching vserver for volume \"" ++ volume ++ "\".")
  | (vs, vols) :: rest =>
    if volume ∈ vols then (true, vs) else get_vserver_go volume rest

/-- Embedding of `HMDCQuotas.get_vserver` (source lines 284-301). -/
def get_vserver (volume : String) : Bool × String :=
  get_vserver_go volume VOLUMES

/-- Embedding of `HMDCQuotas.search_vservers` (source lines 403-456). -/
def search_vservers (na : NetApp) (group : String) (volume : Option String) :
    SearchRes (List (String × List (String × HumanQuota))) × List Call :=
  match volume with
  | none => search_vservers_go na group VOLUMES []
  | some vol =>
    match get_vserver vol with
    | (true, vs) =>
      match group_lookup na group vol vs with
      | (.found qc, tr) => (.ok [(vs, [(vol, humanize_quotas na qc)])], tr)
      | (.absent, tr) => (.ok [], tr)
      | (.failed m, tr) => (.err m, tr)
      | (.exn, tr) => (.exn, tr)
    | (false, msg) => (.err msg, [])

/-- Specification helper: did `group_lookup` find the group on this
volume (return `(True, invoke)`)? -/
def isFound (na : NetApp) (group volume vserver : String) : Bool :=
  match (group_lookup na group volume vserver).1 with
  | .found _ => true
  | _ => false

/-- Specification helper: did `group_lookup` end without an actual error
(the group was found, or simply absent)? -/
def notFailed (na : NetApp) (group volume vserver : String) : Bool :=
  match (group_lookup na group volume vserver).1 with
  | .found _ => true
  | .absent => true
  | .failed _ => false
  | .exn => false

/-- Specification helper: the per-volume match set of a search — the
volumes of `vols` on which `group_lookup` finds the group, with their
quota data, in order. -/
def volMatches (na : NetApp) (group vserver : String) (vols : List String) :
    List (String × HumanQuota) :=
  vols.filterMap (fun v =>
    match (group_lookup na group v vserver).1 with
    | .found qc => some (v, humanize_quotas na qc)
    | _ => none)

/-- Specification helper: the entry a whole-table search contributes for
one vserver — present exactly when its volume search succeeds with a
nonempty match set. -/
def vsEntry (na : NetApp) (group vserver : String) :
    Option (String × List (String × HumanQuota)) :=
  match search_volumes na group vserver with
  | (.ok r, _) => if r.length > 0 then some (vserver, r) else none
  | _ => none

/-- Specification helper: the full fan-out trace — one `quota-get-entry`
search per volume of the static `VOLUMES` table, vserver by vserver, in
table order. -/
def tableCalls (group : String) : List Call :=
  VOLUMES.flatMap (fun p => p.2.map (fun v => Call.q (searchCall group v p.1)))

/-- An array on which every quota call succeeds with no error reason. -/
def naOk : NetApp := ⟨fun _ => none, fun _ => ("", none)⟩

/-- An array on which every quota entry is absent. -/
def naAbsent : NetApp := ⟨fun _ => some "entry doesn\x27t exist", fun _ => ("", none)⟩

/-- An array on which every quota call fails with an actual error. -/
def naBoom : NetApp := ⟨fun _ => some "boom", fun _ => ("", none)⟩

/-- An array on which the group exists on volume `projects` and every
other lookup fails with an actual error. -/
def naPartial : NetApp :=
  ⟨fun qc => if qc.volume = "projects" then none else some "array exploded",
   fun _ => ("1.0K", some 1)⟩

end HMDCQuotas

namespace QuotasUtil

open HMDCQuotas

/-- The parsed CLI arguments of `quotasUtil.py` (source lines 120-134):
`action` and `group` are required; `volume`, `size` are optional strings
and `files` an optional int. -/
structure Args where
  action : String
  group : String
  volume : Option String
  size : Option String
  files : Option ℤ

/-- Embedding of `modify_quota` in `quotasUtil.py` (source lines 24-70):
require a volume, resolve its vserver, map the action letter to
add/delete/modify, run `HMDCQuotas.modify`, and wrap its error message.
Python would raise a `TypeError` concatenating a `None` message; that
case never occurs since `modify` always pairs `False` with a string. -/
def modify_quota (na : NetApp) (args : Args) : ModifyRes × List Call :=
  match args.volume with
  | none => (.ret false (some "Error: You need to specify a volume."), [])
  | some vol =>
    match get_vserver vol with
    | (false, msg) => (.ret false (some msg), [])
    | (true, vserver) =>
      let act := if args.action = "A" then some "add"
                 else if args.action = "D" then some "delete"
                 else if args.action = "M" then some "modify"
                 else none
      match act with
      | none => (.ret false (some "Unhandled action."), [])
      | some action =>
        match modify na action args.group vol vserver args.size
            (args.files.map PyNum.int) with
        | (.ret true _, tr) => (.ret true none, tr)
        | (.ret false (some m), tr) =>
          (.ret false (some ("An error occurred while modifying quota: " ++ m)), tr)
        | (.ret false none, tr) => (.exn, tr)
        | (.exn, tr) => (.exn, tr)

/-- A concrete argument vector: `-a A -g grp` with no volume. -/
def argsA : Args := ⟨"A", "grp", none, none, none⟩

/-- What the CLI prints: a plain line, or the quota table rendered by
`print_quotas` (source lines 73-93, whose column formatting is not
modelled). -/
inductive Out
  | line : String → Out
  | table : List (String × List (String × HumanQuota)) → Out
deriving DecidableEq

/-- Embedding of `search_quotas` in `quotasUtil.py` (source lines
96-116). -/
def search_quotas (na : NetApp) (args : Args) : List Out × List Call :=
  match search_vservers na args.group args.volume with
  | (.ok ms, tr) =>
    if ms.length < 1 then
      ([.line ("No matches for group \"" ++ args.group ++ "\" were found.")], tr)
    else ([.table ms], tr)
  | (.err m, tr) => ([.line ("Error: " ++ m)], tr)
  | (.exn, tr) => ([], tr)

/-- Embedding of the top-level dispatch of `quotasUtil.py` (source lines
145-156).  Python `print` of a `None` result prints the string `None`. -/
def main_dispatch (na : NetApp) (args : Args) : List Out × List Call :=
  if args.action = "S" then search_quotas na args
  else
    match modify_quota na args with
    | (.ret true _, tr) =>
      if args.action = "D" then ([.line "Quota successfully deleted."], tr)
      else
        let p := search_quotas na args
        ([.line "Quota successfully modified."] ++ p.1, tr ++ p.2)
    | (.ret false msg, tr) => ([.line (msg.getD "None")], tr)
    | (.exn, tr) => ([], tr)

end QuotasUtil

namespace HMDCQuotas

theorem alpha_not_digit (c : Char) (h : c.isAlpha = true) : c.isDigit = false := by
  have h2 : (65 : UInt32) ≤ c.val ∨ (97 : UInt32) ≤ c.val := by
    simp only [Char.isAlpha, Char.isUpper, Char.isLower, Bool.or_eq_true,
      Bool.and_eq_true, decide_eq_true_eq, ge_iff_le] at h
    rcases h with ⟨h1, _⟩ | ⟨h1, _⟩
    · exact Or.inl h1
    · exact Or.inr h1
  by_contra hd
  rw [Bool.not_eq_false] at hd
  simp only [Char.isDigit, Bool.and_eq_true, decide_eq_true_eq, ge_iff_le] at hd
  rcases h2 with h2 | h2
  · exact absurd (UInt32.le_trans h2 hd.2) (by decide)
  · exact absurd (UInt32.le_trans h2 hd.2) (by decide)

theorem takeWhile_append_all {p : Char → Bool} {l1 l2 : List Char}
    (h : ∀ c ∈ l1, p c = true) :
    (l1 ++ l2).takeWhile p = l1 ++ l2.takeWhile p := by
  induction l1 with
  | nil => rfl
  | cons a t ih =>
    rw [List.cons_append, List.takeWhile_cons, h a (List.mem_cons_self a t),
      if_pos rfl, List.cons_append,
      ih fun c hc => h c (List.mem_cons_of_mem a hc)]

theorem dropWhile_append_all {p : Char → Bool} {l1 l2 : List Char}
    (h : ∀ c ∈ l1, p c = true) :
    (l1 ++ l2).dropWhile p = l2.dropWhile p := by
  induction l1 with
  | nil => rfl
  | cons a t ih =>
    rw [List.cons_append,
      List.dropWhile_cons_of_pos (h a (List.mem_cons_self a t))]
    exact ih fun c hc => h c (List.mem_cons_of_mem a hc)

theorem convert_eq_aux (s : String) (d u : Char) (ds' rest : List Char)
    (hs : s.toList = (d :: ds') ++ u :: rest)
    (hdig : ∀ c ∈ d :: ds', c.isDigit = true) (hu : u.isAlpha = true) :
    convert_to_kb s =
      (if JERK_FILESIZES.contains u.toUpper then
        ConvResult.err "Enter quota as terabytes or lower."
      else
        match FILESIZES.lookup u.toUpper with
        | some mult => ConvResult.ok (PyNum.mul (.int (valDigits (d :: ds'))) mult)
        | none => ConvResult.err "Unrecognized disk size unit.") := by
  have hnd : u.isDigit = false := alpha_not_digit u hu
  have h1 : ((d :: ds') ++ u :: rest).takeWhile Char.isDigit = d :: ds' := by
    rw [takeWhile_append_all hdig]
    simp [List.takeWhile_cons, hnd]
  have h2 : ((d :: ds') ++ u :: rest).dropWhile Char.isDigit = u :: rest := by
    rw [dropWhile_append_all hdig]
    simp [List.dropWhile_cons, hnd]
  have h3 : (u :: rest).takeWhile Char.isAlpha = u :: rest.takeWhile Char.isAlpha := by
    simp [List.takeWhile_cons, hu]
  simp only [convert_to_kb, hs, h1, h2, h3]

/-- C2: a size string that is a decimal number followed by a unit whose
first letter upper-cases to B, K, M, G or T converts successfully to
the number times the unit's kilobyte multiplier (with B worth `1/1024`
kilobyte, K `1`, M `1024`, G `1048576`, T `1073741824`, so `"5G"` gives
`5242880` KB); a first letter among P, E, Z, Y is rejected with an error
message, and a string not of number-then-letters shape is rejected with
an error message and no value. -/
theorem claim_c2_convert_to_kb :
    (∀ (s : String) (ds : List Char) (u : Char) (rest : List Char) (mult : PyNum),
      s.toList = ds ++ u :: rest →
      ds ≠ [] → (∀ c ∈ ds, c.isDigit = true) → u.isAlpha = true →
      u.toUpper ∈ (['B', 'K', 'M', 'G', 'T'] : List Char) →
      FILESIZES.lookup u.toUpper = some mult →
      convert_to_kb s = .ok (PyNum.mul (.int (valDigits ds)) mult)) ∧
    (∀ (s : String) (ds : List Char) (u : Char) (rest : List Char),
      s.toList = ds ++ u :: rest →
      ds ≠ [] → (∀ c ∈ ds, c.isDigit = true) → u.isAlpha = true →
      u.toUpper ∈ JERK_FILESIZES →
      convert_to_kb s = .err "Enter quota as terabytes or lower.") ∧
    (∀ s : String,
      (¬ ∃ (ds : List Char) (u : Char) (rest : List Char),
        ds ≠ [] ∧ (∀ c ∈ ds, c.isDigit = true) ∧ u.isAlpha = true ∧
        s.toList = ds ++ u :: rest) →
      convert_to_kb s = .err "Unrecognized disk quota format.") ∧
    FILESIZES.lookup 'B' = some (.flt (1 / 1024)) ∧
    FILESIZES.lookup 'K' = some (.int 1) ∧
    FILESIZES.lookup 'M' = some (.int 1024) ∧
    FILESIZES.lookup 'G' = some (.int 1048576) ∧
    FILESIZES.lookup 'T' = some (.int 1073741824) ∧
    convert_to_kb "5G" = .ok (.int 5242880) ∧
    (∀ (n : ℤ) (m : PyNum), (PyNum.mul (.int n) m).toRat = (n : ℚ) * m.toRat) := by
  refine ⟨?_, ?_, ?_, ?_, by decide, by decide, by decide, by decide,
    by decide, ?_⟩
  · intro s ds u rest mult hs hne hdig hu hmem hlk
    obtain ⟨d, ds', rfl⟩ := List.exists_cons_of_ne_nil hne
    rw [convert_eq_aux s d u ds' rest hs hdig hu]
    have hmem' : u.toUpper = 'B' ∨ u.toUpper = 'K' ∨ u.toUpper = 'M' ∨
        u.toUpper = 'G' ∨ u.toUpper = 'T' := by simpa using hmem
    rcases hmem' with h | h | h | h | h <;>
      (rw [h] at hlk ⊢; rw [if_neg (by decide), hlk])
  · intro s ds u rest hs hne hdig hu hmem
    obtain ⟨d, ds', rfl⟩ := List.exists_cons_of_ne_nil hne
    rw [convert_eq_aux s d u ds' rest hs hdig hu]
    have hmem' : u.toUpper = 'P' ∨ u.toUpper = 'E' ∨ u.toUpper = 'Z' ∨
        u.toUpper = 'Y' := by simpa [JERK_FILESIZES] using hmem
    rcases hmem' with h | h | h | h <;> rw [h, if_pos (by decide)]
  · intro s hno
    by_cases h1 : s.toList.takeWhile Char.isDigit = []
    · simp only [convert_to_kb, h1]
    · by_cases h2 : (s.toList.dropWhile Char.isDigit).takeWhile Char.isAlpha = []
      · obtain ⟨d, ds', hds⟩ := List.exists_cons_of_ne_nil h1
        simp only [convert_to_kb, hds, h2]
      · exfalso
        apply hno
        rcases hdw : s.toList.dropWhile Char.isDigit with _ | ⟨x, t⟩
        · rw [hdw] at h2
          simp at h2
        · have hx : Char.isAlpha x = true := by
            by_contra hx
            rw [Bool.not_eq_true] at hx
            rw [hdw, List.takeWhile_cons, hx] at h2
            simp at h2
          refine ⟨s.toList.takeWhile Char.isDigit, x, t, h1,
            fun c hc => List.mem_takeWhile_imp hc, hx, ?_⟩
          rw [← hdw]
          exact (List.takeWhile_append_dropWhile Char.isDigit s.toList).symm
  · show FILESIZES.lookup 'B' = some (.flt (1 / 1024))
    rw [show FILESIZES.lookup 'B' = some (.flt kbPerByte) from rfl]
    rw [show kbPerByte = 1 / 1024 from by
      rw [kbPerByte, Rat.mk'_eq_divInt, Rat.divInt_eq_div]; norm_num]
  · intro n m
    cases m <;> simp [PyNum.mul, PyNum.toRat]

theorem claim_c2_witness :
    convert_to_kb "12K" = .ok (PyNum.mul (.int (valDigits ['1', '2'])) (.int 1)) :=
  claim_c2_convert_to_kb.1 "12K" ['1', '2'] 'K' [] (.int 1) rfl (by decide)
    (by decide) (by decide) (by decide) (by decide)

theorem netapp_invoke_cases (action group volume vserver : String)
    (d f : Option PyNum) :
    (strContains action "add" = true →
      netapp_invoke action group volume vserver d f =
        (.ok ⟨"quota-add-entry", group, volume, vserver, some (d, f)⟩,
         [Call.q ⟨"quota-add-entry", group, volume, vserver, some (d, f)⟩])) ∧
    (strContains action "add" = false → strContains action "delete" = true →
      netapp_invoke action group volume vserver d f =
        (.ok ⟨"quota-delete-entry", group, volume, vserver, none⟩,
         [Call.q ⟨"quota-delete-entry", group, volume, vserver, none⟩])) ∧
    (strContains action "add" = false → strContains action "delete" = false →
      strContains action "modify" = true →
      netapp_invoke action group volume vserver d f =
        (.ok ⟨"quota-modify-entry", group, volume, vserver, some (d, f)⟩,
         [Call.q ⟨"quota-modify-entry", group, volume, vserver, some (d, f)⟩])) ∧
    (strContains action "add" = false → strContains action "delete" = false →
      strContains action "modify" = false →
      (strContains action "get" = true ∨ strContains action "search" = true) →
      netapp_invoke action group volume vserver d f =
        (.ok ⟨"quota-get-entry", group, volume, vserver, none⟩,
         [Call.q ⟨"quota-get-entry", group, volume, vserver, none⟩])) ∧
    (strContains action "add" = false → strContains action "delete" = false →
      strContains action "modify" = false → strContains action "get" = false →
      strContains action "search" = false →
      netapp_invoke action group volume vserver d f =
        (.err "Unknown action.", [])) := by
  refine ⟨?_, ?_, ?_, ?_, ?_⟩
  · intro h1
    unfold netapp_invoke
    rw [h1]
    rfl
  · intro h1 h2
    unfold netapp_invoke
    rw [h1, if_neg (by decide), h2]
    rfl
  · intro h1 h2 h3
    unfold netapp_invoke
    rw [h1, if_neg (by decide), h2, if_neg (by decide), h3]
    rfl
  · intro h1 h2 h3 h4
    unfold netapp_invoke
    rw [h1, if_neg (by decide), h2, if_neg (by decide), h3, if_neg (by decide)]
    rcases h4 with h4 | h4
    · rw [h4, if_pos (by rw [Bool.true_or])]
      rfl
    · rw [h4, if_pos (by rw [Bool.or_true])]
      rfl
  · intro h1 h2 h3 h4 h5
    unfold netapp_invoke
    rw [h1, if_neg (by decide), h2, if_neg (by decide), h3, if_neg (by decide),
      h4, h5, if_neg (by decide)]

theorem netapp_invoke_shape (action group volume vserver : String)
    (d f : Option PyNum) :
    netapp_invoke action group volume vserver d f = (.err "Unknown action.", []) ∨
    ∃ qc, netapp_invoke action group volume vserver d f = (.ok qc, [Call.q qc]) := by
  have hc := netapp_invoke_cases action group volume vserver d f
  by_cases h1 : strContains action "add" = true
  · exact Or.inr ⟨_, hc.1 h1⟩
  rw [Bool.not_eq_true] at h1
  by_cases h2 : strContains action "delete" = true
  · exact Or.inr ⟨_, hc.2.1 h1 h2⟩
  rw [Bool.not_eq_true] at h2
  by_cases h3 : strContains action "modify" = true
  · exact Or.inr ⟨_, hc.2.2.1 h1 h2 h3⟩
  rw [Bool.not_eq_true] at h3
  by_cases h4 : strContains action "get" = true
  · exact Or.inr ⟨_, hc.2.2.2.1 h1 h2 h3 (Or.inl h4)⟩
  rw [Bool.not_eq_true] at h4
  by_cases h5 : strContains action "search" = true
  · exact Or.inr ⟨_, hc.2.2.2.1 h1 h2 h3 (Or.inr h5)⟩
  rw [Bool.not_eq_true] at h5
  exact Or.inl (hc.2.2.2.2 h1 h2 h3 h4 h5)

/-- C4 counterexample: the action string `"getadd"` contains `"get"`,
but `_netapp_invoke` sends `quota-add-entry` (with limits), not
`quota-get-entry`, because the `add` test comes first. -/
theorem claim_c4_counterexample :
    strContains "getadd" "get" = true ∧
    (netapp_invoke "getadd" "g" "v" "vs" (some (.int 1)) (some (.int 2))).1 =
      .ok ⟨"quota-add-entry", "g", "v", "vs", some (some (.int 1), some (.int 2))⟩ ∧
    ("quota-add-entry" : String) ≠ "quota-get-entry" := by decide

/-- C4 (amended): the keyword tests happen in source order — add,
delete, modify, then get/search — and the first keyword contained in
the action string determines the API call; delete and get invocations
carry no disk or file limit while add and modify invocations carry
both; an action containing none of the keywords yields
`(False, "Unknown action.")` without contacting the array. -/
theorem claim_c4_invoke_dispatch :
    ∀ (action group volume vserver : String) (d f : Option PyNum),
    (strContains action "add" = true →
      netapp_invoke action group volume vserver d f =
        (.ok ⟨"quota-add-entry", group, volume, vserver, some (d, f)⟩,
         [Call.q ⟨"quota-add-entry", group, volume, vserver, some (d, f)⟩])) ∧
    (strContains action "add" = false → strContains action "delete" = true →
      netapp_invoke action group volume vserver d f =
        (.ok ⟨"quota-delete-entry", group, volume, vserver, none⟩,
         [Call.q ⟨"quota-delete-entry", group, volume, vserver, none⟩])) ∧
    (strContains action "add" = false → strContains action "delete" = false →
      strContains action "modify" = true →
      netapp_invoke action group volume vserver d f =
        (.ok ⟨"quota-modify-entry", group, volume, vserver, some (d, f)⟩,
         [Call.q ⟨"quota-modify-entry", group, volume, vserver, some (d, f)⟩])) ∧
    (strContains action "add" = false → strContains action "delete" = false →
      strContains action "modify" = false →
      (strContains action "get" = true ∨ strContains action "search" = true) →
      netapp_invoke action group volume vserver d f =
        (.ok ⟨"quota-get-entry", group, volume, vserver, none⟩,
         [Call.q ⟨"quota-get-entry", group, volume, vserver, none⟩])) ∧
    (strContains action "add" = false → strContains action "delete" = false →
      strContains action "modify" = false → strContains action "get" = false →
      strContains action "search" = false →
      netapp_invoke action group volume vserver d f =
        (.err "Unknown action.", [])) :=
  fun action group volume vserver d f =>
    netapp_invoke_cases action group volume vserver d f

theorem claim_c4_witness :
    netapp_invoke "add" "g" "v" "vs" none none =
      (.ok ⟨"quota-add-entry", "g", "v", "vs", some (none, none)⟩,
       [Call.q ⟨"quota-add-entry", "g", "v", "vs", some (none, none)⟩]) :=
  (claim_c4_invoke_dispatch "add" "g" "v" "vs" none none).1 (by decide)

/-- C5: every volume listed under a vserver in the static `VOLUMES`
table resolves to that vserver, the per-vserver volume tuples are
pairwise disjoint (each volume occurs under exactly one vserver), and a
volume occurring in no tuple yields failure with an error message. -/
theorem claim_c5_get_vserver :
    (∀ (vs : String) (vols : List String) (v : String),
      (vs, vols) ∈ VOLUMES → v ∈ vols → get_vserver v = (true, vs)) ∧
    VOLUMES.Pairwise (fun p q => ∀ v, v ∈ p.2 → v ∉ q.2) ∧
    (∀ v : String, (∀ p ∈ VOLUMES, v ∉ p.2) →
      get_vserver v = (false,
        "Did not find a matching vserver for volume \"" ++ v ++ "\".")) := by
  refine ⟨?_, by decide, ?_⟩
  · intro vs vols v hm hv
    simp only [VOLUMES, List.mem_cons, List.not_mem_nil, or_false,
      Prod.mk.injEq] at hm
    rcases hm with ⟨rfl, rfl⟩ | ⟨rfl, rfl⟩ | ⟨rfl, rfl⟩ <;>
      fin_cases hv <;> decide
  · intro v h
    have h1 : v ∉ ["projects", "projects_nobackup", "projects_ci3",
        "projects_nobackup_ci3"] :=
      h ("nc-rce-svm01-mgmt",
        ["projects", "projects_nobackup", "projects_ci3", "projects_nobackup_ci3"])
        (by simp [VOLUMES])
    have h2 : v ∉ ["www"] :=
      h ("nc-hmdc-svm01-mgmt", ["www"]) (by simp [VOLUMES])
    have h3 : v ∉ ["rshiny_ci3"] :=
      h ("nc-rshiny-svm01-mgmt", ["rshiny_ci3"]) (by simp [VOLUMES])
    show get_vserver_go v VOLUMES = _
    rw [VOLUMES]
    rw [get_vserver_go, if_neg h1, get_vserver_go, if_neg h2,
      get_vserver_go, if_neg h3, get_vserver_go]

theorem claim_c5_witness :
    get_vserver "www" = (true, "nc-hmdc-svm01-mgmt") ∧
    get_vserver "scratch" =
      (false, "Did not find a matching vserver for volume \"scratch\".") :=
  ⟨claim_c5_get_vserver.1 "nc-hmdc-svm01-mgmt" ["www"] "www" (by decide) (by decide),
   claim_c5_get_vserver.2.2 "scratch" (by decide)⟩

/-- C10 (code bug): on an action `_netapp_invoke` does not recognize,
with a disk limit that converts successfully, `modify` does not return
`(False, "Unknown action.")` — the misspelt `sucess` on source line 385
leaves `success` true, so `results_reason()` is called on the error
string and an `AttributeError` is raised (no array call is made). -/
theorem claim_c10_unknown_action_crash :
    ∀ na : NetApp,
      modify na "frobnicate" "grp" "projects" "nc-rce-svm01-mgmt"
        (some "5G") none = (.exn, []) :=
  fun _ => rfl

theorem search_invoke_eq (group volume vserver : String) :
    netapp_invoke "search" group volume vserver none none =
      (.ok (searchCall group volume vserver),
       [Call.q (searchCall group volume vserver)]) := rfl

/-- C1: whenever `modify` returns success, the array accepted the quota
change with no error reason and the trace is exactly the quota-change
call followed by a `quota-resize` of the affected volume and vserver;
whenever `modify` does not return success, no resize call appears in
the trace at all. -/
theorem claim_c1_resize_after_change :
    ∀ (na : NetApp) (action group volume vserver : String)
      (dl : Option String) (fl : Option PyNum),
      ((modify na action group volume vserver dl fl).1 = .ret true none →
        ∃ qc, (modify na action group volume vserver dl fl).2 =
            [Call.q qc, Call.resize volume vserver] ∧ na.reason qc = none) ∧
      ((modify na action group volume vserver dl fl).1 ≠ .ret true none →
        ∀ v2 vs2, Call.resize v2 vs2 ∉
          (modify na action group volume vserver dl fl).2) := by
  intro na action group volume vserver dl fl
  rcases hconv : convert_to_kb (dl.getD DEFAULT_QUOTA) with d | m
  · rcases netapp_invoke_shape action group volume vserver (some d)
        (some (fl.getD (PyNum.div16 d))) with h | ⟨qc, h⟩
    · have hm : modify na action group volume vserver dl fl = (.exn, []) := by
        simp only [modify, hconv, h]
      rw [hm]
      exact ⟨fun hs => absurd hs (by simp), fun _ v2 vs2 => by simp⟩
    · rcases hr : na.reason qc with _ | r
      · have hm : modify na action group volume vserver dl fl =
            (.ret true none, [Call.q qc, Call.resize volume vserver]) := by
          simp [modify, hconv, h, hr, netapp_resize]
        rw [hm]
        exact ⟨fun _ => ⟨qc, rfl, hr⟩, fun hns => absurd rfl hns⟩
      · have hm : modify na action group volume vserver dl fl =
            (.ret false (some r), [Call.q qc]) := by
          simp only [modify, hconv, h, hr]
        rw [hm]
        refine ⟨fun hs => absurd hs (by simp), fun _ v2 vs2 => by simp⟩
  · have hm : modify na action group volume vserver dl fl =
        (.ret false (some m), []) := by
      simp only [modify, hconv]
    rw [hm]
    refine ⟨fun hs => absurd hs (by simp), fun _ v2 vs2 => by simp⟩

theorem claim_c1_witness :
    ∃ qc, (modify naOk "add" "grp" "projects" "nc-rce-svm01-mgmt" none none).2 =
        [Call.q qc, Call.resize "projects" "nc-rce-svm01-mgmt"] ∧
      naOk.reason qc = none :=
  (claim_c1_resize_after_change naOk "add" "grp" "projects" "nc-rce-svm01-mgmt"
    none none).1 (by decide)

/-- C9: `group_lookup` distinguishes absence from error — it returns
`(True, result)` when the array reports no reason, `(False, None)` when
the reason contains `entry doesn\x27t exist`, and `(False, reason)` for
any other reason; consequently the volume search skips an absent group
keeping its accumulated matches and continuing with the next volume,
records a found group, aborts with the error reason when a lookup
fails, and ends in an error only when some volume lookup actually
failed with that reason. -/
theorem claim_c9_absent_vs_error :
    ∀ (na : NetApp) (group volume vserver : String),
    (na.reason (searchCall group volume vserver) = none →
      group_lookup na group volume vserver =
        (.found (searchCall group volume vserver),
         [Call.q (searchCall group volume vserver)])) ∧
    (∀ r, na.reason (searchCall group volume vserver) = some r →
      strContains r "entry doesn\x27t exist" = true →
      group_lookup na group volume vserver =
        (.absent, [Call.q (searchCall group volume vserver)])) ∧
    (∀ r, na.reason (searchCall group volume vserver) = some r →
      strContains r "entry doesn\x27t exist" = false →
      group_lookup na group volume vserver =
        (.failed r, [Call.q (searchCall group volume vserver)])) ∧
    (∀ (rest : List String) (acc : List (String × HumanQuota)),
      (group_lookup na group volume vserver).1 = .absent →
      search_volumes_go na group vserver (volume :: rest) acc =
        ((search_volumes_go na group vserver rest acc).1,
         (group_lookup na group volume vserver).2 ++
           (search_volumes_go na group vserver rest acc).2)) ∧
    (∀ (rest : List String) (acc : List (String × HumanQuota)) (qc : QuotaCall),
      (group_lookup na group volume vserver).1 = .found qc →
      search_volumes_go na group vserver (volume :: rest) acc =
        ((search_volumes_go na group vserver rest
            (acc ++ [(volume, humanize_quotas na qc)])).1,
         (group_lookup na group volume vserver).2 ++
           (search_volumes_go na group vserver rest
             (acc ++ [(volume, humanize_quotas na qc)])).2)) ∧
    (∀ (rest : List String) (acc : List (String × HumanQuota)) (r : String),
      (group_lookup na group volume vserver).1 = .failed r →
      (search_volumes_go na group vserver (volume :: rest) acc).1 = .err r) ∧
    (∀ (vols : List String) (acc : List (String × HumanQuota)) (r : String),
      (search_volumes_go na group vserver vols acc).1 = .err r →
      ∃ v ∈ vols, (group_lookup na group v vserver).1 = .failed r) := by
  intro na group volume vserver
  refine ⟨?_, ?_, ?_, ?_, ?_, ?_, ?_⟩
  · intro h
    simp [group_lookup, search_invoke_eq, h]
  · intro r h hc
    simp [group_lookup, search_invoke_eq, h, hc]
  · intro r h hc
    simp [group_lookup, search_invoke_eq, h, hc]
  · intro rest acc h
    rcases hgl : group_lookup na group volume vserver with ⟨lr, tr⟩
    rw [hgl] at h
    have h2 : lr = .absent := h
    subst h2
    simp only [search_volumes_go, hgl]
  · intro rest acc qc h
    rcases hgl : group_lookup na group volume vserver with ⟨lr, tr⟩
    rw [hgl] at h
    have h2 : lr = .found qc := h
    subst h2
    simp only [search_volumes_go, hgl]
  · intro rest acc r h
    rcases hgl : group_lookup na group volume vserver with ⟨lr, tr⟩
    rw [hgl] at h
    have h2 : lr = .failed r := h
    subst h2
    simp only [search_volumes_go, hgl]
  · intro vols
    induction vols with
    | nil =>
      intro acc r h
      simp only [search_volumes_go] at h
      exact absurd h (by simp)
    | cons v t ih =>
      intro acc r h
      rcases hgl : group_lookup na group v vserver with ⟨lr, tr⟩
      cases lr with
      | found qc =>
        simp only [search_volumes_go, hgl] at h
        obtain ⟨u, hu, hf⟩ := ih _ r h
        exact ⟨u, List.mem_cons_of_mem v hu, hf⟩
      | absent =>
        simp only [search_volumes_go, hgl] at h
        obtain ⟨u, hu, hf⟩ := ih _ r h
        exact ⟨u, List.mem_cons_of_mem v hu, hf⟩
      | failed m =>
        simp only [search_volumes_go, hgl] at h
        injection h with hm
        exact ⟨v, List.mem_cons_self v t, by rw [hgl, hm]⟩
      | exn =>
        simp only [search_volumes_go, hgl] at h
        exact absurd h (by simp)

theorem claim_c9_witness :
    group_lookup naOk "g" "projects" "vs1" =
      (.found (searchCall "g" "projects" "vs1"),
       [Call.q (searchCall "g" "projects" "vs1")]) ∧
    group_lookup naAbsent "g" "projects" "vs1" =
      (.absent, [Call.q (searchCall "g" "projects" "vs1")]) ∧
    group_lookup naBoom "g" "projects" "vs1" =
      (.failed "boom", [Call.q (searchCall "g" "projects" "vs1")]) ∧
    (search_volumes_go naBoom "g" "vs1" ["projects"] []).1 = .err "boom" :=
  ⟨(claim_c9_absent_vs_error naOk "g" "projects" "vs1").1 rfl,
   (claim_c9_absent_vs_error naAbsent "g" "projects" "vs1").2.1
     "entry doesn\x27t exist" rfl (by decide),
   (claim_c9_absent_vs_error naBoom "g" "projects" "vs1").2.2.1
     "boom" rfl (by decide),
   (claim_c9_absent_vs_error naBoom "g" "projects" "vs1").2.2.2.2.2.1
     [] [] "boom" (by decide)⟩


theorem group_lookup_calls (na : NetApp) (group volume vserver : String) :
    (group_lookup na group volume vserver).2 =
      [Call.q (searchCall group volume vserver)] := by
  rcases hr : na.reason (searchCall group volume vserver) with _ | r
  · simp [group_lookup, search_invoke_eq, hr]
  · by_cases hc : strContains r "entry doesn\x27t exist" = true
    · simp [group_lookup, search_invoke_eq, hr, hc]
    · rw [Bool.not_eq_true] at hc
      simp [group_lookup, search_invoke_eq, hr, hc]

theorem search_volumes_go_ok (na : NetApp) (group vserver : String) :
    ∀ (vols : List String) (acc ms : List (String × HumanQuota)),
      (search_volumes_go na group vserver vols acc).1 = .ok ms →
      ms = acc ++ volMatches na group vserver vols ∧
      (search_volumes_go na group vserver vols acc).2 =
        vols.map (fun v => Call.q (searchCall group v vserver)) := by
  intro vols
  induction vols with
  | nil =>
    intro acc ms h
    simp only [search_volumes_go] at h
    injection h with h
    subst h
    simp [volMatches, search_volumes_go]
  | cons v t ih =>
    intro acc ms h
    rcases hgl : group_lookup na group v vserver with ⟨lr, tr⟩
    have htr : tr = [Call.q (searchCall group v vserver)] := by
      have h2 := group_lookup_calls na group v vserver
      rw [hgl] at h2
      exact h2
    subst htr
    cases lr with
    | found qc =>
      have hvm : volMatches na group vserver (v :: t) =
          (v, humanize_quotas na qc) :: volMatches na group vserver t := by
        simp only [volMatches, List.filterMap_cons, hgl]
      simp only [search_volumes_go, hgl] at h ⊢
      obtain ⟨h1, h2⟩ := ih _ _ h
      refine ⟨?_, ?_⟩
      · rw [h1, hvm, List.append_assoc, List.singleton_append]
      · rw [h2]
        simp
    | absent =>
      have hvm : volMatches na group vserver (v :: t) =
          volMatches na group vserver t := by
        simp only [volMatches, List.filterMap_cons, hgl]
      simp only [search_volumes_go, hgl] at h ⊢
      obtain ⟨h1, h2⟩ := ih _ _ h
      refine ⟨by rw [h1, hvm], ?_⟩
      rw [h2]
      simp
    | failed m =>
      simp only [search_volumes_go, hgl] at h
      exact absurd h (by simp)
    | exn =>
      simp only [search_volumes_go, hgl] at h
      exact absurd h (by simp)

theorem search_vservers_go_ok (na : NetApp) (group : String) :
    ∀ (entries : List (String × List String))
      (acc ms : List (String × List (String × HumanQuota))),
      (search_vservers_go na group entries acc).1 = .ok ms →
      ms = acc ++ entries.filterMap (fun p => vsEntry na group p.1) ∧
      (search_vservers_go na group entries acc).2 =
        entries.flatMap (fun p => (search_volumes na group p.1).2) ∧
      ∀ p ∈ entries, ∃ r, (search_volumes na group p.1).1 = .ok r := by
  intro entries
  induction entries with
  | nil =>
    intro acc ms h
    simp only [search_vservers_go] at h
    injection h with h
    subst h
    simp [search_vservers_go]
  | cons p t ih =>
    obtain ⟨vs, vols⟩ := p
    intro acc ms h
    rcases hsv : search_volumes na group vs with ⟨res, tr⟩
    cases res with
    | ok r =>
      have hve : vsEntry na group vs =
          if r.length > 0 then some (vs, r) else none := by
        simp only [vsEntry, hsv]
      by_cases hlen : r.length > 0
      · simp only [search_vservers_go, hsv, if_pos hlen] at h ⊢
        obtain ⟨h1, h2, h3⟩ := ih _ _ h
        refine ⟨?_, ?_, ?_⟩
        · rw [h1, List.filterMap_cons]
          simp only [hve, if_pos hlen, List.append_assoc, List.singleton_append]
        · rw [h2, List.flatMap_cons]
          simp only [hsv]
        · intro p2 hp2
          rcases List.mem_cons.mp hp2 with rfl | hp2
          · exact ⟨r, by rw [hsv]⟩
          · exact h3 p2 hp2
      · simp only [search_vservers_go, hsv, if_neg hlen] at h ⊢
        obtain ⟨h1, h2, h3⟩ := ih _ _ h
        refine ⟨?_, ?_, ?_⟩
        · rw [h1, List.filterMap_cons]
          simp only [hve, if_neg hlen]
        · rw [h2, List.flatMap_cons]
          simp only [hsv]
        · intro p2 hp2
          rcases List.mem_cons.mp hp2 with rfl | hp2
          · exact ⟨r, by rw [hsv]⟩
          · exact h3 p2 hp2
    | err m =>
      simp only [search_vservers_go, hsv] at h
      exact absurd h (by simp)
    | exn =>
      simp only [search_vservers_go, hsv] at h
      exact absurd h (by simp)

theorem volMatches_ne_nil (na : NetApp) (group vserver : String)
    (vols : List String) :
    volMatches na group vserver vols ≠ [] ↔
      ∃ v ∈ vols, isFound na group v vserver = true := by
  simp only [volMatches, Ne, List.filterMap_eq_nil_iff]
  push_neg
  constructor
  · rintro ⟨v, hv, hne⟩
    refine ⟨v, hv, ?_⟩
    rcases hgl : (group_lookup na group v vserver).1 with qc | _ | m | _
    · simp [isFound, hgl]
    · rw [hgl] at hne
      simp at hne
    · rw [hgl] at hne
      simp at hne
    · rw [hgl] at hne
      simp at hne
  · rintro ⟨v, hv, hf⟩
    refine ⟨v, hv, ?_⟩
    rcases hgl : (group_lookup na group v vserver).1 with qc | _ | m | _ <;>
      simp [isFound, hgl] at hf ⊢

theorem flatMap_congr_mem {α β : Type} {l : List α} {f g : α → List β}
    (h : ∀ a ∈ l, f a = g a) : l.flatMap f = l.flatMap g := by
  induction l with
  | nil => simp
  | cons a t ih =>
    simp only [List.flatMap_cons, h a (by simp),
      ih (fun b hb => h b (by simp [hb]))]

theorem volumes_lookup_eq : ∀ p ∈ VOLUMES, VOLUMES.lookup p.1 = some p.2 := by
  decide

/-- C6: when a whole-table search (no volume given) succeeds, its trace
is exactly one `quota-get-entry` search per volume of the static
`VOLUMES` table, vserver by vserver in table order and nothing else,
and the result has an entry for precisely those vservers whose
per-volume match set is nonempty (the match set being nonempty exactly
when the group is found on one of the vserver volumes). -/
theorem claim_c6_fanout :
    ∀ (na : NetApp) (group : String)
      (ms : List (String × List (String × HumanQuota))),
      (search_vservers na group none).1 = .ok ms →
      (search_vservers na group none).2 = tableCalls group ∧
      (∀ vs entry, (vs, entry) ∈ ms →
        ∃ vols, (vs, vols) ∈ VOLUMES ∧
          entry = volMatches na group vs vols ∧ entry ≠ []) ∧
      (∀ vs vols, (vs, vols) ∈ VOLUMES →
        (volMatches na group vs vols ≠ [] ↔
          ∃ v ∈ vols, isFound na group v vs = true)) ∧
      (∀ vs vols, (vs, vols) ∈ VOLUMES → volMatches na group vs vols ≠ [] →
        (vs, volMatches na group vs vols) ∈ ms) := by
  intro na group ms h
  obtain ⟨h1, h2, h3⟩ := search_vservers_go_ok na group VOLUMES [] ms h
  have hsv_eq : ∀ p ∈ VOLUMES, search_volumes na group p.1 =
      search_volumes_go na group p.1 p.2 [] := by
    intro p hp
    simp only [search_volumes, volumes_lookup_eq p hp]
  have hok : ∀ p ∈ VOLUMES,
      search_volumes_go na group p.1 p.2 [] =
        (.ok (volMatches na group p.1 p.2),
         p.2.map (fun v => Call.q (searchCall group v p.1))) := by
    intro p hp
    obtain ⟨r, hr⟩ := h3 p hp
    rw [hsv_eq p hp] at hr
    obtain ⟨hr1, hr2⟩ := search_volumes_go_ok na group p.1 p.2 [] r hr
    rw [List.nil_append] at hr1
    subst hr1
    rcases hgo : search_volumes_go na group p.1 p.2 [] with ⟨res, tr⟩
    rw [hgo] at hr hr2
    exact Prod.ext_iff.mpr ⟨hr, hr2⟩
  refine ⟨?_, ?_, ?_, ?_⟩
  · rw [show (search_vservers na group none).2 =
        (search_vservers_go na group VOLUMES []).2 from rfl, h2]
    rw [tableCalls]
    refine flatMap_congr_mem ?_
    intro p hp
    rw [hsv_eq p hp, hok p hp]
  · intro vs entry hmem
    rw [h1, List.nil_append] at hmem
    obtain ⟨p, hp, hpe⟩ := List.mem_filterMap.mp hmem
    have hveq : vsEntry na group p.1 =
        if (volMatches na group p.1 p.2).length > 0
          then some (p.1, volMatches na group p.1 p.2) else none := by
      simp only [vsEntry, hsv_eq p hp, hok p hp]
    rw [hveq] at hpe
    by_cases hlen : (volMatches na group p.1 p.2).length > 0
    · rw [if_pos hlen] at hpe
      injection hpe with hpe
      rw [Prod.mk.injEq] at hpe
      obtain ⟨hfst, hsnd⟩ := hpe
      refine ⟨p.2, ?_, ?_, ?_⟩
      · rw [← hfst]
        exact hp
      · rw [← hsnd, ← hfst]
      · rw [← hsnd]
        exact List.length_pos.mp hlen
    · rw [if_neg hlen] at hpe
      exact absurd hpe (by simp)
  · intro vs vols _
    exact volMatches_ne_nil na group vs vols
  · intro vs vols hp hne
    rw [h1, List.nil_append]
    refine List.mem_filterMap.mpr ⟨(vs, vols), hp, ?_⟩
    have hveq : vsEntry na group vs =
        if (volMatches na group vs vols).length > 0
          then some (vs, volMatches na group vs vols) else none := by
      have h4 := hsv_eq (vs, vols) hp
      have h5 := hok (vs, vols) hp
      simp only at h4 h5
      simp only [vsEntry, h4, h5]
    rw [hveq, if_pos (List.length_pos.mpr hne)]

theorem claim_c6_witness :
    (search_vservers naAbsent "grp" none).2 = tableCalls "grp" := by
  have h : (search_vservers naAbsent "grp" none).1 =
      SearchRes.ok ([] : List (String × List (String × HumanQuota))) := by decide
  exact (claim_c6_fanout naAbsent "grp" [] h).1


/-- C3 counterexample: on an array where the group exists on the first
volume `projects` and the lookup of the second volume
`projects_nobackup` fails with reason `array exploded`, the volume
search returns only `(False, "array exploded")` — a result that carries
no match set — although the first volume had yielded a match (both
volumes were queried, as the trace shows). -/
theorem claim_c3_counterexample :
    (group_lookup naPartial "g" "projects" "nc-rce-svm01-mgmt").1 =
      .found (searchCall "g" "projects" "nc-rce-svm01-mgmt") ∧
    (group_lookup naPartial "g" "projects_nobackup" "nc-rce-svm01-mgmt").1 =
      .failed "array exploded" ∧
    search_volumes naPartial "g" "nc-rce-svm01-mgmt" =
      (SearchRes.err "array exploded",
       [Call.q (searchCall "g" "projects" "nc-rce-svm01-mgmt"),
        Call.q (searchCall "g" "projects_nobackup" "nc-rce-svm01-mgmt")]) := by
  decide

theorem search_volumes_go_err (na : NetApp) (group vserver : String) :
    ∀ (pre : List String) (v : String) (post : List String)
      (acc : List (String × HumanQuota)) (r : String),
      (∀ u ∈ pre, notFailed na group u vserver = true) →
      (group_lookup na group v vserver).1 = .failed r →
      search_volumes_go na group vserver (pre ++ v :: post) acc =
        (.err r, (pre ++ [v]).map (fun u => Call.q (searchCall group u vserver))) := by
  intro pre
  induction pre with
  | nil =>
    intro v post acc r _ hf
    rcases hgl : group_lookup na group v vserver with ⟨lr, tr⟩
    rw [hgl] at hf
    have h2 : lr = .failed r := hf
    subst h2
    have htr : tr = [Call.q (searchCall group v vserver)] := by
      have h3 := group_lookup_calls na group v vserver
      rw [hgl] at h3
      exact h3
    subst htr
    simp only [List.nil_append, search_volumes_go, hgl, List.map_cons,
      List.map_nil]
  | cons u t ih =>
    intro v post acc r hnf hf
    have hu : notFailed na group u vserver = true := hnf u (by simp)
    rcases hgl : group_lookup na group u vserver with ⟨lr, tr⟩
    have htr : tr = [Call.q (searchCall group u vserver)] := by
      have h3 := group_lookup_calls na group u vserver
      rw [hgl] at h3
      exact h3
    subst htr
    cases lr with
    | found qc =>
      simp only [List.cons_append, search_volumes_go, hgl, List.append_eq]
      rw [ih v post _ r (fun x hx => hnf x (by simp [hx])) hf]
      simp
    | absent =>
      simp only [List.cons_append, search_volumes_go, hgl, List.append_eq]
      rw [ih v post _ r (fun x hx => hnf x (by simp [hx])) hf]
      simp
    | failed m =>
      rw [notFailed, hgl] at hu
      simp at hu
    | exn =>
      rw [notFailed, hgl] at hu
      simp at hu

/-- C3 (amended): when earlier volumes of the sequential search yielded
quota matches and a later volume's lookup returns an actual error, the
search result is only the failure, `(False, reason)` — the matches
found before the failure are discarded, not reported (though the trace
shows those volumes were queried). -/
theorem claim_c3_partial_failure :
    ∀ (na : NetApp) (group vserver : String) (vols pre post : List String)
      (v r : String),
      VOLUMES.lookup vserver = some vols →
      vols = pre ++ v :: post →
      (∃ u ∈ pre, isFound na group u vserver = true) →
      (∀ u ∈ pre, notFailed na group u vserver = true) →
      (group_lookup na group v vserver).1 = .failed r →
      search_volumes na group vserver =
        (.err r,
         (pre ++ [v]).map (fun u => Call.q (searchCall group u vserver))) := by
  intro na group vserver vols pre post v r hlk hsplit _ hnf hf
  simp only [search_volumes, hlk]
  rw [hsplit]
  exact search_volumes_go_err na group vserver pre v post [] r hnf hf

theorem claim_c3_witness :
    search_volumes naPartial "g" "nc-rce-svm01-mgmt" =
      (.err "array exploded",
       (["projects"] ++ ["projects_nobackup"]).map
         (fun u => Call.q (searchCall "g" u "nc-rce-svm01-mgmt"))) :=
  claim_c3_partial_failure naPartial "g" "nc-rce-svm01-mgmt"
    ["projects", "projects_nobackup", "projects_ci3", "projects_nobackup_ci3"]
    ["projects"] ["projects_ci3", "projects_nobackup_ci3"]
    "projects_nobackup" "array exploded" (by decide) rfl
    ⟨"projects", by decide, by decide⟩ (by decide) (by decide)

theorem netapp_invoke_shape2 (action group volume vserver : String)
    (d f : Option PyNum) :
    netapp_invoke action group volume vserver d f = (.err "Unknown action.", []) ∨
    (∃ api, netapp_invoke action group volume vserver d f =
      (.ok ⟨api, group, volume, vserver, none⟩,
       [Call.q ⟨api, group, volume, vserver, none⟩])) ∨
    (∃ api, netapp_invoke action group volume vserver d f =
      (.ok ⟨api, group, volume, vserver, some (d, f)⟩,
       [Call.q ⟨api, group, volume, vserver, some (d, f)⟩])) := by
  have hc := netapp_invoke_cases action group volume vserver d f
  by_cases h1 : strContains action "add" = true
  · exact Or.inr (Or.inr ⟨_, hc.1 h1⟩)
  rw [Bool.not_eq_true] at h1
  by_cases h2 : strContains action "delete" = true
  · exact Or.inr (Or.inl ⟨_, hc.2.1 h1 h2⟩)
  rw [Bool.not_eq_true] at h2
  by_cases h3 : strContains action "modify" = true
  · exact Or.inr (Or.inr ⟨_, hc.2.2.1 h1 h2 h3⟩)
  rw [Bool.not_eq_true] at h3
  by_cases h4 : strContains action "get" = true
  · exact Or.inr (Or.inl ⟨_, hc.2.2.2.1 h1 h2 h3 (Or.inl h4)⟩)
  rw [Bool.not_eq_true] at h4
  by_cases h5 : strContains action "search" = true
  · exact Or.inr (Or.inl ⟨_, hc.2.2.2.1 h1 h2 h3 (Or.inr h5)⟩)
  rw [Bool.not_eq_true] at h5
  exact Or.inl (hc.2.2.2.2 h1 h2 h3 h4 h5)

theorem modify_trace_calls (na : NetApp) (action group volume vserver : String)
    (dls : Option String) (fl : Option PyNum) (dl : PyNum)
    (hconv : convert_to_kb (dls.getD DEFAULT_QUOTA) = .ok dl)
    (qc2 : QuotaCall)
    (hinv : netapp_invoke action group volume vserver (some dl)
        (some (fl.getD (PyNum.div16 dl))) = (.ok qc2, [Call.q qc2])) :
    ∀ c ∈ (modify na action group volume vserver dls fl).2,
      c = Call.q qc2 ∨ c = Call.resize volume vserver := by
  intro c hc
  rcases hr : na.reason qc2 with _ | r
  · have hm : (modify na action group volume vserver dls fl).2 =
        [Call.q qc2, Call.resize volume vserver] := by
      simp [modify, hconv, hinv, hr, netapp_resize]
    rw [hm] at hc
    simpa using hc
  · have hm : (modify na action group volume vserver dls fl).2 =
        [Call.q qc2] := by
      simp only [modify, hconv, hinv, hr]
    rw [hm] at hc
    simp at hc
    exact Or.inl (by rw [hc])

theorem modify_call_limits (na : NetApp) (action group volume vserver : String)
    (dls : Option String) (fl : Option PyNum) (dl : PyNum)
    (hconv : convert_to_kb (dls.getD DEFAULT_QUOTA) = .ok dl) :
    ∀ qc lims, Call.q qc ∈ (modify na action group volume vserver dls fl).2 →
      qc.limits = some lims →
      lims = (some dl, some (fl.getD (PyNum.div16 dl))) := by
  intro qc lims hmem hlims
  rcases netapp_invoke_shape2 action group volume vserver (some dl)
      (some (fl.getD (PyNum.div16 dl))) with h | ⟨api, h⟩ | ⟨api, h⟩
  · have hm : (modify na action group volume vserver dls fl).2 = [] := by
      simp only [modify, hconv, h]
    rw [hm] at hmem
    simp at hmem
  · rcases modify_trace_calls na action group volume vserver dls fl dl hconv
        _ h (Call.q qc) hmem with hq | hq
    · injection hq with hq
      subst hq
      simp at hlims
    · exact absurd hq (by simp)
  · rcases modify_trace_calls na action group volume vserver dls fl dl hconv
        _ h (Call.q qc) hmem with hq | hq
    · injection hq with hq
      subst hq
      simp only at hlims
      injection hlims with hlims
      exact hlims.symm
    · exact absurd hq (by simp)


/-- C8: when no disk limit is given, `modify` uses the default quota
`5G`, which converts to 5242880 KB, and any quota call it sends that
carries limits carries that disk limit; when no file limit is given,
the file limit sent is the converted disk limit divided by 16 (Python 2
division), which is 327680 for the default disk quota; an explicitly
given file limit is passed through unchanged. -/
theorem claim_c8_defaults :
    convert_to_kb DEFAULT_QUOTA = .ok (.int 5242880) ∧
    PyNum.div16 (.int 5242880) = .int 327680 ∧
    (∀ (na : NetApp) (action group volume vserver : String) (fl : Option PyNum)
      (qc : QuotaCall) (lims : Option PyNum × Option PyNum),
      Call.q qc ∈ (modify na action group volume vserver none fl).2 →
      qc.limits = some lims →
      lims = (some (.int 5242880), some (fl.getD (.int 327680)))) ∧
    (∀ (na : NetApp) (action group volume vserver : String) (ds : String)
      (dl : PyNum) (qc : QuotaCall) (lims : Option PyNum × Option PyNum),
      convert_to_kb ds = .ok dl →
      Call.q qc ∈ (modify na action group volume vserver (some ds) none).2 →
      qc.limits = some lims →
      lims = (some dl, some (PyNum.div16 dl))) := by
  refine ⟨by decide, by decide, ?_, ?_⟩
  · intro na action group volume vserver fl qc lims hmem hlims
    have h := modify_call_limits na action group volume vserver none fl
      (.int 5242880) (by decide) qc lims hmem hlims
    rw [show PyNum.div16 (.int 5242880) = .int 327680 from by decide] at h
    exact h
  · intro na action group volume vserver ds dl qc lims hconv hmem hlims
    exact modify_call_limits na action group volume vserver (some ds) none dl
      hconv qc lims hmem hlims

theorem claim_c8_witness :
    Call.q ⟨"quota-add-entry", "grp", "projects", "vs1",
        some (some (.int 5242880), some (.int 327680))⟩ ∈
      (modify naOk "add" "grp" "projects" "vs1" none none).2 ∧
    ((some (.int 5242880), some (.int 327680)) :
        Option PyNum × Option PyNum) =
      (some (.int 5242880), some ((none : Option PyNum).getD (.int 327680))) := by
  refine ⟨by decide, ?_⟩
  exact claim_c8_defaults.2.2.1 naOk "add" "grp" "projects" "vs1" none
    ⟨"quota-add-entry", "grp", "projects", "vs1",
      some (some (.int 5242880), some (.int 327680))⟩
    (some (.int 5242880), some (.int 327680)) (by decide) (by decide)

theorem modify_ret_true (na : NetApp) (action group volume vserver : String)
    (dls : Option String) (fl : Option PyNum) :
    ∀ msg, (modify na action group volume vserver dls fl).1 = .ret true msg →
      msg = none := by
  intro msg h
  rcases hconv : convert_to_kb (dls.getD DEFAULT_QUOTA) with d | m
  · rcases netapp_invoke_shape action group volume vserver (some d)
        (some (fl.getD (PyNum.div16 d))) with hi | ⟨qc, hi⟩
    · rw [show (modify na action group volume vserver dls fl).1 =
          ModifyRes.exn from by simp only [modify, hconv, hi]] at h
      exact absurd h (by simp)
    · rcases hr : na.reason qc with _ | r
      · have h2 : (modify na action group volume vserver dls fl).1 =
            .ret true none := by
          simp [modify, hconv, hi, hr, netapp_resize]
        rw [h2] at h
        injection h with _ h3
        exact h3.symm
      · have h2 : (modify na action group volume vserver dls fl).1 =
            .ret false (some r) := by
          simp only [modify, hconv, hi, hr]
        rw [h2] at h
        exact absurd h (by simp)
  · have h2 : (modify na action group volume vserver dls fl).1 =
        .ret false (some m) := by
      simp only [modify, hconv]
    rw [h2] at h
    exact absurd h (by simp)

end HMDCQuotas

namespace QuotasUtil

open HMDCQuotas

theorem modify_quota_eq (na : NetApp) (args : Args) (vol vs act : String)
    (hvol : args.volume = some vol) (hvs : get_vserver vol = (true, vs))
    (hact : (if args.action = "A" then some "add"
      else if args.action = "D" then some "delete"
      else if args.action = "M" then some "modify" else none) = some act) :
    modify_quota na args =
      (match modify na act args.group vol vs args.size
          (args.files.map PyNum.int) with
       | (.ret true _, tr) => (.ret true none, tr)
       | (.ret false (some m), tr) =>
         (.ret false (some ("An error occurred while modifying quota: " ++ m)), tr)
       | (.ret false none, tr) => (.exn, tr)
       | (.exn, tr) => (.exn, tr)) := by
  simp only [modify_quota, hvol, hvs, hact]

theorem c7_branch (na : NetApp) (args : Args) (act : String)
    (hactif : (if args.action = "A" then some "add"
      else if args.action = "D" then some "delete"
      else if args.action = "M" then some "modify" else none) = some act)
    (hne : args.action ≠ "S") :
    (args.volume = none →
      modify_quota na args =
        (.ret false (some "Error: You need to specify a volume."), []) ∧
      (main_dispatch na args).2 = []) ∧
    (∀ vol vs, args.volume = some vol → get_vserver vol = (true, vs) →
      (modify_quota na args).2 =
        (modify na act args.group vol vs args.size (args.files.map PyNum.int)).2 ∧
      ((modify_quota na args).1 = .ret true none ↔
        (modify na act args.group vol vs args.size
          (args.files.map PyNum.int)).1 = .ret true none)) := by
  constructor
  · intro hvol
    have hmq : modify_quota na args =
        (.ret false (some "Error: You need to specify a volume."), []) := by
      simp only [modify_quota, hvol]
    refine ⟨hmq, ?_⟩
    unfold main_dispatch
    rw [if_neg hne, hmq]
  · intro vol vs hvol hvs
    have heq := modify_quota_eq na args vol vs act hvol hvs hactif
    rcases hmr : modify na act args.group vol vs args.size
        (args.files.map PyNum.int) with ⟨mr, mtr⟩
    cases mr with
    | ret b msg =>
      cases b with
      | true =>
        have hmsg : msg = none :=
          modify_ret_true na act args.group vol vs args.size
            (args.files.map PyNum.int) msg (by rw [hmr])
        subst hmsg
        have hmq : modify_quota na args = (.ret true none, mtr) := by
          rw [heq, hmr]
        rw [hmq]
        exact ⟨rfl, by simp⟩
      | false =>
        cases msg with
        | none =>
          have hmq : modify_quota na args = (.exn, mtr) := by
            rw [heq, hmr]
          rw [hmq]
          exact ⟨rfl, by simp⟩
        | some m =>
          have hmq : modify_quota na args =
              (.ret false
                (some ("An error occurred while modifying quota: " ++ m)),
               mtr) := by
            rw [heq, hmr]
          rw [hmq]
          exact ⟨rfl, by simp⟩
    | exn =>
      have hmq : modify_quota na args = (.exn, mtr) := by
        rw [heq, hmr]
      rw [hmq]
      exact ⟨rfl, by simp⟩

/-- C7: the CLI dispatches on the action argument (restricted by the
parser to A, D, M, S): S runs the quota search; A, D and M run the
quota modification with action add, delete and modify respectively,
delegating to the library `modify` through the resolved vserver with
identical array interaction; and for A, D, M a missing volume argument
makes the command fail with an error message before any array query. -/
theorem claim_c7_cli_dispatch :
    ∀ (na : NetApp) (args : Args),
      args.action ∈ (["A", "D", "M", "S"] : List String) →
      (args.action = "S" → main_dispatch na args = search_quotas na args) ∧
      (∀ a act, (a, act) ∈ ([("A", "add"), ("D", "delete"), ("M", "modify")] :
          List (String × String)) → args.action = a →
        ((args.volume = none →
          modify_quota na args =
            (.ret false (some "Error: You need to specify a volume."), []) ∧
          (main_dispatch na args).2 = []) ∧
        (∀ vol vs, args.volume = some vol → get_vserver vol = (true, vs) →
          (modify_quota na args).2 =
            (modify na act args.group vol vs args.size
              (args.files.map PyNum.int)).2 ∧
          ((modify_quota na args).1 = .ret true none ↔
            (modify na act args.group vol vs args.size
              (args.files.map PyNum.int)).1 = .ret true none)))) := by
  intro na args _
  constructor
  · intro hS
    unfold main_dispatch
    rw [hS, if_pos rfl]
  · intro a act hmem ha
    simp only [List.mem_cons, List.not_mem_nil, or_false, Prod.mk.injEq] at hmem
    rcases hmem with ⟨rfl, rfl⟩ | ⟨rfl, rfl⟩ | ⟨rfl, rfl⟩ <;>
      exact c7_branch na args _ (by rw [ha]; decide) (by rw [ha]; decide)

theorem claim_c7_witness :
    modify_quota naOk argsA =
      (.ret false (some "Error: You need to specify a volume."), []) ∧
    (main_dispatch naOk argsA).2 = [] :=
  ((claim_c7_cli_dispatch naOk argsA (by decide)).2 "A" "add"
    (by decide) rfl).1 rfl

end QuotasUtil
